import Mathlib

/-!
Verification development for a WhatsApp HTTP gateway (three JavaScript
source files: `main.js` and two near-duplicate queue variants).  The
concurrency core consists of a serial task queue with per-job timeouts
(`TaskQueue` in `main.js`, `enqueue`/`processQueue` in the queue variant),
a session failover routine, and a reply correlator built on four maps
(`esperas`, `respuestas`, `resolvers`, `timeouts`).  Each JavaScript
function is embedded shallowly as a Lean function over explicit state.
-/

namespace WApp

/-- Errors thrown by the embedded code.  Each constructor corresponds to a
`new Error(...)` (or a provider-thrown fault) in the source. -/
inductive Err where
  /-- main.js line 81: new Error with text built from the budget `ms`. -/
  | jobTimedOut (ms : Nat)
  /-- main.js line 238: thrown when the enqueued wrapper finds `client` null. -/
  | clienteNoInicializado
  /-- queue variant line 77: readiness gate rejection. -/
  | timeoutEsperandoReady
  /-- any error thrown by the session provider (client.sendMessage etc.). -/
  | providerFault (msg : String)
deriving DecidableEq, Repr

/-- Settlement of a job's promise: `resolve` with a value or `reject`
with an error. -/
inductive Outcome where
  | ok (v : Nat)
  | error (e : Err)
deriving DecidableEq, Repr

/-- The message text carried by each error, as written in the source. -/
def errMessage : Err → String
  | .jobTimedOut ms => s!"Job timed out after {ms}ms"
  | .clienteNoInicializado => "Cliente no inicializado"
  | .timeoutEsperandoReady => "Timeout esperando client.ready"
  | .providerFault m => m

/-! ## TaskQueue (main.js lines 41-97)

`_runWithTimeout` races the job's action against a `setTimeout` timer,
guarded by a `finished` flag so that only the first settlement is
delivered.  We embed the race as a fold over the time-ordered list of
settlement events observed for the job: the timer firing, the action's
promise resolving, or the action's promise rejecting.  The `finished`
flag and the delivered outcome are the race's state. -/

/-- A settlement event inside `_runWithTimeout`: the `setTimeout` timer
fires, or the action's promise resolves / rejects. -/
inductive RaceEvent where
  | timerFires
  | actionResolves (v : Nat)
  | actionRejects (e : Err)
deriving DecidableEq, Repr

/-- State of the race in `_runWithTimeout`: the `finished` flag (main.js
line 77) and the outcome delivered to the job's promise, if any. -/
structure RaceState where
  finished : Bool
  outcome : Option (Outcome)
deriving DecidableEq, Repr

/-- One settlement event hitting `_runWithTimeout`'s callbacks (main.js
lines 78-94): each callback returns immediately if `finished` is already
set, otherwise sets it and delivers its outcome.  (`clearTimeout` only
prevents a later timer event, which the flag ignores anyway.) -/
def raceStep (ms : Nat) (s : RaceState) (ev : RaceEvent) : RaceState :=
  if s.finished then s
  else
    match ev with
    | .timerFires => { finished := true, outcome := some (.error (.jobTimedOut ms)) }
    | .actionResolves v => { finished := true, outcome := some (.ok v) }
    | .actionRejects e => { finished := true, outcome := some (.error e) }

namespace TaskQueue

/-- Embedding of `_runWithTimeout fn ms` (main.js lines 75-96) over the
time-ordered settlement events of the run. -/
def runWithTimeout (events : List RaceEvent) (ms : Nat) : RaceState :=
  events.foldl (raceStep ms) { finished := false, outcome := none }

/-- A queued job (main.js line 50): its timeout budget and the
time-ordered settlement events of its `_runWithTimeout` run.  Because
`setTimeout` always eventually fires, a real run's event list always
contains `timerFires`. -/
structure Job where
  timeoutMs : Nat
  events : List RaceEvent
deriving DecidableEq, Repr

/-- The outcome `_process` awaits for one job (main.js line 66): `some`
of the first delivered settlement, or `none` if no event ever settles
the race (impossible in a real run, where the timer always fires). -/
def settleJob (j : Job) : Option (Outcome) :=
  (runWithTimeout j.events j.timeoutMs).outcome

/-- The drain loop of `_process` (main.js lines 62-71): `shift` the
front job, settle it with `_runWithTimeout`, deliver `resolve`/`reject`
(the `try`/`catch` means a rejection never stops the loop), repeat. -/
def processAll : List Job → List (Option (Outcome))
  | [] => []
  | j :: rest => settleJob j :: processAll rest

/-- State of one `TaskQueue` instance: its `queue` array and the
`processing` re-entrancy flag (main.js lines 42-45). -/
structure TQState where
  queue : List Job
  processing : Bool
deriving DecidableEq, Repr

/-- Embedding of `_process` (main.js lines 59-73): if a drain is already in
progress, return at once (delivering nothing); otherwise drain the
whole queue in FIFO order and clear the flag. -/
def process (st : TQState) : TQState × List (Option (Outcome)) :=
  if st.processing then (st, [])
  else ({ queue := [], processing := false }, processAll st.queue)

end TaskQueue

/-! ## Session controller (main.js lines 17-20, 103-197)

`createClient` builds a provider session and wires its event handlers;
`failover` destroys the current session best-effort, advances the
round-robin index and installs a freshly created (and just-initialized,
hence not yet ready) session as the current one. -/

/-- The provider events a session's handlers are subscribed to. -/
inductive SessEvent where
  | qr | loadingScreen | ready | authFailure | disconnected | message
deriving DecidableEq, Repr

/-- Lifecycle state of one session instance. -/
inductive SessState where
  | uninitialized | connecting | ready | disconnected | destroyed
deriving DecidableEq, Repr

/-- A provider session handle: its identity, the events its wired
handlers listen to (in subscription order), and its lifecycle state. -/
structure Session where
  sessionId : String
  handlers : List SessEvent
  sstate : SessState
deriving DecidableEq, Repr

/-- The fixed identity pool (main.js line 18). -/
def sessionIds : List String := ["numero1", "numero2"]

/-- Embedding of `createClient(sessionId)` (main.js lines 103-158): builds a session
and subscribes handlers for qr, loading_screen, ready, auth_failure,
disconnected and message, in that order. -/
def createClient (sessionId : String) : Session :=
  { sessionId := sessionId
    handlers := [.qr, .loadingScreen, .ready, .authFailure, .disconnected, .message]
    sstate := .uninitialized }

/-- Effect of `client.initialize()`: starts the connection handshake; the session
only becomes `ready` later, via the asynchronous ready event. -/
def clientInit (s : Session) : Session := { s with sstate := .connecting }

/-- Module-level mutable state of main.js relevant to failover:
`currentSessionIndex` (line 19) and `client` (line 20). -/
structure AppState where
  currentSessionIndex : Nat
  client : Option Session
deriving DecidableEq, Repr

/-- Embedding of `failover()` (main.js lines 161-197).  `destroyResult` is the
settlement of the old client's `destroy()` promise; the source both
wraps the call in `try`/`catch` and attaches a `.catch` that only logs,
so the destroy outcome is swallowed and the rest of the routine does
not depend on it.  The index advances by one modulo the pool size, a
new client is created for the next identity (wiring all handlers),
`initialize` is called on it, and one extra once-ready listener is
attached for the server-start logic (lines 183-196).  The new client is
assigned to `client` right after creation, before any ready event. -/
def failover (destroyResult : Option Err) (st : AppState) : AppState :=
  let idx := (st.currentSessionIndex + 1) % sessionIds.length
  let newClient := clientInit (createClient (sessionIds.getD idx ""))
  { currentSessionIndex := idx
    client := some { newClient with handlers := newClient.handlers ++ [.ready] } }

/-- The disconnected handler (main.js lines 134-137): logs and calls
`failover()`. -/
def handleDisconnected (destroyResult : Option Err) (st : AppState) : AppState :=
  failover destroyResult st

/-- The job function `enqueueSendOperation` puts on the queue (main.js
lines 236-240): throw `Cliente no inicializado` if `client` is null,
else run `fn`.  The null check settles immediately (before any timer),
so a missing client rejects the job at once; otherwise the job's
outcome is the race of `fn` against the job timer. -/
def wrappedJobOutcome (st : AppState) (j : TaskQueue.Job) : Option Outcome :=
  if st.client.isNone then some (.error .clienteNoInicializado)
  else TaskQueue.settleJob j

/-- The same enqueued wrapper (main.js lines 236-240), instrumented
with whether `fn()` — the session operation — was reached.  The wrapper
checks only that `client` is non-null; the session's lifecycle state
plays no part, and there is no readiness gate anywhere in main.js's
queue path. -/
def mainWrappedAttempt (st : AppState) (taskResult : Outcome) : Outcome × Bool :=
  match st.client with
  | none => (.error .clienteNoInicializado, false)
  | some _ => (taskResult, true)

/-- Embedding of `enqueueSendOperation(fn, opts)` (main.js lines 233-247): await the
queued job; on success return its value; on any rejection log, call
`failover()` (its own errors swallowed) and rethrow.  Returns the value
or error surfaced to the caller, the resulting module state, and
whether `failover()` was invoked. -/
def enqueueSendOperation (destroyResult : Option Err) (st : AppState)
    (j : TaskQueue.Job) : Option Outcome × AppState × Bool :=
  match wrappedJobOutcome st j with
  | some (.ok v) => (some (.ok v), st, false)
  | some (.error e) => (some (.error e), failover destroyResult st, true)
  | none => (none, st, false)

/-! ## The queue variant (main.queue.js, part_000 lines 39-91)

This variant gates every queued task behind `waitForClientReady` before
running it. -/

/-- Environment seen by `waitForClientReady`: whether `client` is
non-null, the current `clientReady` flag, and the time (ms from now) at
which the client would emit ready, if ever. -/
structure ReadyEnv where
  clientPresent : Bool
  clientReady : Bool
  readyEventAt : Option Nat
deriving DecidableEq, Repr

namespace QueueVariant

/-- Embedding of `waitForClientReady(timeout = 60000)` (part_000 lines 68-91): if
`client && clientReady`, resolve immediately.  Otherwise subscribe
`once('ready')` on the client (a no-op when `client` is null, due to
`client?.once`) and start a timer: resolve if the ready event fires
before the timer, reject with the timeout error otherwise. -/
def waitForClientReady (env : ReadyEnv) (timeout : Nat) : Option Err :=
  if env.clientPresent && env.clientReady then none
  else if env.clientPresent then
    match env.readyEventAt with
    | some t => if t < timeout then none else some .timeoutEsperandoReady
    | none => some .timeoutEsperandoReady
  else some .timeoutEsperandoReady

/-- One iteration of the drain loop in `processQueue` (part_000 lines
54-62): `await waitForClientReady()` (with its 60000 ms default), then
run the task.  Returns the outcome delivered to the item's promise and
whether the task function was actually attempted. -/
def gatedRunItem (env : ReadyEnv) (taskResult : Outcome) : Outcome × Bool :=
  match waitForClientReady env 60000 with
  | some e => (.error e, false)
  | none => (taskResult, true)

/-- Embedding of `processQueue` (part_000 lines 50-65): shift each item in FIFO
order and run it behind the readiness gate; the `try`/`catch` delivers
rejections without stopping the loop. -/
def processQueue (env : ReadyEnv) : List Outcome → List (Outcome × Bool)
  | [] => []
  | t :: rest => gatedRunItem env t :: processQueue env rest

end QueueVariant

/-! ## Reply correlator (main.js lines 23-26, 139-155, 384-398, 409-447)

The four module-level `Map`s are embedded as association lists with
unique keys: `set` is modelled by removing any entry for the key and
consing the new one (JS `Map` keys are unique, so lookup, membership
and deletion behave identically), `delete` by removing the key, and
lookup by first match. -/

/-- An association-list map with String keys. -/
abbrev SMap (α : Type) : Type := List (String × α)

/-- Lookup, as in `Map.get` / `Map.has`: first entry with the key, if any. -/
def mlookup {α : Type} : SMap α → String → Option α
  | [], _ => none
  | (k, v) :: rest, key => if k = key then some v else mlookup rest key

/-- Deletion, as in `Map.delete`: remove the entry for the key. -/
def merase {α : Type} : SMap α → String → SMap α
  | [], _ => []
  | p :: rest, k => if p.1 = k then merase rest k else p :: merase rest k

/-- Update, as in `Map.set`: bind the key to the value (replacing any previous
binding). -/
def minsert {α : Type} (m : SMap α) (k : String) (v : α) : SMap α :=
  (k, v) :: merase m k

/-- An inbound provider message as the correlator sees it:
`message.from` (the conversation/chat id) and `message.body`. -/
structure Msg where
  msgFrom : String
  body : String
deriving DecidableEq, Repr

/-- One waiter release: the waiter token and the payload its `resolve`
received — `some` reply object, or `none` for the literal `null` used
at deadline. -/
structure Woken where
  waiter : Nat
  payload : Option Msg
deriving DecidableEq, Repr

/-- The correlator's module-level maps (main.js lines 23-26):
`esperas : chatId → idMensaje`, `respuestas : idMensaje → message`,
`resolvers : idMensaje → array of pending resolve callbacks` (each
callback represented by a waiter token), and `timeouts : idMensaje →
timer handle`. -/
structure CorrState where
  esperas : SMap String
  respuestas : SMap Msg
  resolvers : SMap (List Nat)
  timeouts : SMap Nat
deriving DecidableEq, Repr

/-- The maps at process start: all empty. -/
def emptyCorr : CorrState :=
  { esperas := [], respuestas := [], resolvers := [], timeouts := [] }

/-- The wait registration in `POST /esperar` (main.js lines 384-397),
run after the queued send returned `idMensaje`: `esperas.set(chatId,
idMensaje)`, `resolvers.set(idMensaje, [])`, start the 5-minute
deadline timer and record it in `timeouts`. -/
def registerWait (st : CorrState) (chatId idMensaje : String) (timerId : Nat) : CorrState :=
  { st with
    esperas := minsert st.esperas chatId idMensaje
    resolvers := minsert st.resolvers idMensaje []
    timeouts := minsert st.timeouts idMensaje timerId }

/-- The inbound-message handler wired by `createClient` (main.js lines
139-155).  If `esperas` has an entry for `message.from`: cache the
message in `respuestas` under the mapped `idMensaje`, delete the
`esperas` entry, resolve and delete every resolver registered for
`idMensaje`, and clear and delete its deadline timer.  Otherwise the
maps are untouched.  Returns the new state and the waiters woken. -/
def onMessage (st : CorrState) (m : Msg) : CorrState × List Woken :=
  let chatId := m.msgFrom
  match mlookup st.esperas chatId with
  | none => (st, [])
  | some idMensaje =>
      let respuestas1 := minsert st.respuestas idMensaje m
      let esperas1 := merase st.esperas chatId
      let resolvers1 :=
        match mlookup st.resolvers idMensaje with
        | some _ => merase st.resolvers idMensaje
        | none => st.resolvers
      let woken :=
        match mlookup st.resolvers idMensaje with
        | some ws => ws.map (fun w => { waiter := w, payload := some m })
        | none => []
      let timeouts1 :=
        match mlookup st.timeouts idMensaje with
        | some _ => merase st.timeouts idMensaje
        | none => st.timeouts
      ({ esperas := esperas1, respuestas := respuestas1,
         resolvers := resolvers1, timeouts := timeouts1 }, woken)

/-- The deadline callback scheduled by `registerWait` (main.js lines
388-395); the closure captured `chatId` and `idMensaje`.  If the
conversation still maps to this `idMensaje` and no reply was cached:
delete the `esperas` entry, resolve every resolver with `null` and
delete the resolver list.  Either way, delete the timer handle. -/
def deadlineFire (st : CorrState) (chatId idMensaje : String) : CorrState × List Woken :=
  if mlookup st.esperas chatId = some idMensaje ∧ mlookup st.respuestas idMensaje = none then
    ({ st with
        esperas := merase st.esperas chatId
        resolvers := merase st.resolvers idMensaje
        timeouts := merase st.timeouts idMensaje },
     ((mlookup st.resolvers idMensaje).getD []).map (fun w => { waiter := w, payload := none }))
  else
    ({ st with timeouts := merase st.timeouts idMensaje }, [])

/-- Result of the synchronous part of `GET /respuesta/:idMensaje`. -/
inductive AwaitOut where
  /-- a cached reply was returned immediately, with no suspension. -/
  | cached (m : Msg)
  /-- answered 404 Respuesta no encontrada. -/
  | notFound
  /-- a resolver was pushed and the handler suspended on its promise. -/
  | suspended (st1 : CorrState)
  /-- the call `resolvers.get(idMensaje)` returned `undefined` and `.push` threw. -/
  | crash
deriving DecidableEq, Repr

/-- Embedding of `GET /respuesta/:idMensaje` (main.js lines 409-432, up to
the suspension): return the cached reply if `respuestas` has the id;
else 404 unless some `esperas` value equals the id (`estaEsperando`);
else push `resolve` — represented by the token `waiter` — onto
`resolvers.get(idMensaje)`, which throws if that entry is absent. -/
def awaitReplyStep (st : CorrState) (idMensaje : String) (waiter : Nat) : AwaitOut :=
  match mlookup st.respuestas idMensaje with
  | some m => .cached m
  | none =>
      if st.esperas.any (fun p => p.2 == idMensaje) then
        match mlookup st.resolvers idMensaje with
        | some ws => .suspended { st with resolvers := minsert st.resolvers idMensaje (ws ++ [waiter]) }
        | none => .crash
      else .notFound

/-- One transition of the correlator state: any of the four operations
that touch the maps. -/
inductive CorrStep : CorrState → CorrState → Prop where
  | reg (st : CorrState) (c mid : String) (t : Nat) :
      CorrStep st (registerWait st c mid t)
  | msg (st : CorrState) (m : Msg) :
      CorrStep st (onMessage st m).1
  | dead (st : CorrState) (c mid : String) :
      CorrStep st (deadlineFire st c mid).1
  | push (st st1 : CorrState) (mid : String) (w : Nat) :
      awaitReplyStep st mid w = .suspended st1 → CorrStep st st1

/-- Correlator states reachable from process start.  The registration
step carries the provider's guarantee that each sent message gets a
fresh id: the registered `idMensaje` is not currently the target of any
other conversation's wait. -/
inductive CorrReach : CorrState → Prop where
  | init : CorrReach emptyCorr
  | reg (st : CorrState) (c mid : String) (t : Nat) :
      CorrReach st → st.esperas.any (fun p => p.2 == mid) = false →
      CorrReach (registerWait st c mid t)
  | msg (st : CorrState) (m : Msg) :
      CorrReach st → CorrReach (onMessage st m).1
  | dead (st : CorrState) (c mid : String) :
      CorrReach st → CorrReach (deadlineFire st c mid).1
  | push (st st1 : CorrState) (mid : String) (w : Nat) :
      CorrReach st → awaitReplyStep st mid w = .suspended st1 → CorrReach st1

/-! ## HTTP validation layer (main.js lines 257-260, 291-298, 337-340,
366-369) -/

/-- The request fields the four POST endpoints read from `req.body` /
`req.file`.  A missing field is `none`. -/
structure Req where
  numero : Option String
  texto : Option String
  lat : Option String
  lon : Option String
  filePath : Option String
deriving DecidableEq, Repr

/-- JS truthiness for the string-valued fields: `undefined` and the
empty string are falsy, every other string truthy. -/
def truthy : Option String → Bool
  | none => false
  | some s => s != ""

/-- What the validation prologue of an endpoint decides. -/
inductive EndpointOutcome where
  /-- answered 400 with json error Faltan datos. -/
  | faltanDatos
  /-- answered 404 with json error Número inválido. -/
  | numeroInvalido
  /-- validation passed; a task for this chat id reaches the queue. -/
  | enqueued (chatId : String)
deriving DecidableEq, Repr

/-- Validation prologue of `POST /enviar-mensaje` (main.js lines 257-262). -/
def enviarMensajeRoute (r : Req) : EndpointOutcome :=
  if !truthy r.numero || !truthy r.texto then .faltanDatos
  else if (r.numero.getD "").length ≠ 13 then .numeroInvalido
  else .enqueued ((r.numero.getD "") ++ "@c.us")

/-- Validation prologue of `POST /enviar-archivo` (main.js lines 286-298): requires
`numero` and the uploaded file's path. -/
def enviarArchivoRoute (r : Req) : EndpointOutcome :=
  if !truthy r.numero || !truthy r.filePath then .faltanDatos
  else if (r.numero.getD "").length ≠ 13 then .numeroInvalido
  else .enqueued ((r.numero.getD "") ++ "@c.us")

/-- Validation prologue of `POST /enviar-ubicacion` (main.js lines 337-342). -/
def enviarUbicacionRoute (r : Req) : EndpointOutcome :=
  if !truthy r.numero || !truthy r.lat || !truthy r.lon then .faltanDatos
  else if (r.numero.getD "").length ≠ 13 then .numeroInvalido
  else .enqueued ((r.numero.getD "") ++ "@c.us")

/-- Validation prologue of `POST /esperar` (main.js lines 366-371). -/
def esperarRoute (r : Req) : EndpointOutcome :=
  if !truthy r.numero || !truthy r.texto then .faltanDatos
  else if (r.numero.getD "").length ≠ 13 then .numeroInvalido
  else .enqueued ((r.numero.getD "") ++ "@c.us")

/-- The association list has pairwise distinct keys — automatically
true of every state of a JS `Map`. -/
def NodupKeys {α : Type} (m : SMap α) : Prop := (m.map Prod.fst).Nodup

/-- The correlator invariant: `esperas` has distinct keys, no two
conversations target the same message id, and every message id
targeted by `esperas` owns an entry in `resolvers`. -/
def CorrInv (st : CorrState) : Prop :=
  NodupKeys st.esperas ∧
  (∀ c c' mid : String, mlookup st.esperas c = some mid →
      mlookup st.esperas c' = some mid → c = c') ∧
  (∀ c mid : String, mlookup st.esperas c = some mid →
      (mlookup st.resolvers mid).isSome = true)

/-! ## Concrete states used by witnesses and counterexamples -/

/-- A started app: session zero created and just initialized (still
connecting, not yet ready). -/
def st0 : AppState :=
  { currentSessionIndex := 0, client := some (clientInit (createClient "numero1")) }

/-- A job whose action never settles inside its 45s budget: the only
settlement event of its run is the timer firing. -/
def jTimeout : TaskQueue.Job := { timeoutMs := 45000, events := [.timerFires] }

/-- Correlator after `registerWait(c, m1)` with timer 1. -/
def c5s1 : CorrState := registerWait emptyCorr "c" "m1" 1

/-- State after waiter 7 suspended on `GET /respuesta/m1`. -/
def c5s2 : CorrState :=
  { esperas := [("c", "m1")], respuestas := [], resolvers := [("m1", [7])],
    timeouts := [("m1", 1)] }

/-- State after `registerWait(c, m2)` with timer 2 overwrote the
conversation mapping. -/
def c5s3 : CorrState := registerWait c5s2 "c" "m2" 2

/-- Correlator holding a cached reply for m1: wait registered on
conversation c, then an inbound message on c observed. -/
def stCached : CorrState := (onMessage c5s1 { msgFrom := "c", body := "pong" }).1

/-- One `registerWait` step later (unrelated conversation c2/m9). -/
def stCachedLater : CorrState := registerWait stCached "c2" "m9" 2

/-- Once the `finished` flag is set, every later settlement event is
ignored: the fold is constant on finished states. -/
theorem raceStep_absorb (ms : Nat) (s : RaceState) (hs : s.finished = true) :
    ∀ evs : List RaceEvent, evs.foldl (raceStep ms) s = s := by
  intro evs
  induction evs with
  | nil => rfl
  | cons ev rest ih =>
      simp only [List.foldl_cons]
      have : raceStep ms s ev = s := by simp [raceStep, hs]
      rw [this, ih]

/-- After any event the race is finished, so the first event decides. -/
theorem runWithTimeout_first (ms : Nat) (ev : RaceEvent) (rest : List RaceEvent) :
    TaskQueue.runWithTimeout (ev :: rest) ms =
      raceStep ms { finished := false, outcome := none } ev := by
  have hfin : (raceStep ms { finished := false, outcome := none } ev).finished = true := by
    cases ev <;> simp [raceStep]
  simpa [TaskQueue.runWithTimeout] using
    raceStep_absorb ms (raceStep ms { finished := false, outcome := none } ev) hfin rest

/-- A finished race stays finished over any further events. -/
theorem runWithTimeout_append (evs more : List RaceEvent) (ms : Nat)
    (h : (TaskQueue.runWithTimeout evs ms).finished = true) :
    TaskQueue.runWithTimeout (evs ++ more) ms = TaskQueue.runWithTimeout evs ms := by
  simp only [TaskQueue.runWithTimeout, List.foldl_append]
  exact raceStep_absorb ms _ h more

/-- The drain settles exactly one outcome per job. -/
theorem processAll_length (jobs : List TaskQueue.Job) :
    (TaskQueue.processAll jobs).length = jobs.length := by
  induction jobs with
  | nil => rfl
  | cons j rest ih => simp [TaskQueue.processAll, ih]

/-- The i-th delivered outcome is the i-th submitted job's settlement. -/
theorem processAll_get (jobs : List TaskQueue.Job) (i : Nat) :
    (TaskQueue.processAll jobs)[i]? = jobs[i]?.map TaskQueue.settleJob := by
  induction jobs generalizing i with
  | nil => simp [TaskQueue.processAll]
  | cons j rest ih =>
      cases i with
      | zero => simp [TaskQueue.processAll]
      | succ n => simpa [TaskQueue.processAll] using ih n

/-- C1: the processing loop of `TaskQueue._process` settles the queued
jobs strictly in FIFO submission order — the i-th outcome delivered is
the settlement of the i-th submitted job, with one outcome per job —
the drain handles one job fully before recursing on the rest, a
re-entrant `_process` call while a drain is in progress does nothing,
and a failing job never stops the loop: the jobs queued after it are
all still executed and delivered. -/
theorem taskQueue_fifo_one_at_a_time (jobs : List TaskQueue.Job) :
    ((TaskQueue.processAll jobs).length = jobs.length) ∧
    (∀ i : Nat, (TaskQueue.processAll jobs)[i]? = jobs[i]?.map TaskQueue.settleJob) ∧
    (∀ (j : TaskQueue.Job) (rest : List TaskQueue.Job),
        TaskQueue.processAll (j :: rest) =
          TaskQueue.settleJob j :: TaskQueue.processAll rest) ∧
    (TaskQueue.process { queue := jobs, processing := false } =
        ({ queue := [], processing := false }, TaskQueue.processAll jobs)) ∧
    (TaskQueue.process { queue := jobs, processing := true } =
        ({ queue := jobs, processing := true }, [])) := by
  refine ⟨processAll_length jobs, fun i => processAll_get jobs i, fun j rest => rfl, ?_, ?_⟩
  · simp [TaskQueue.process]
  · simp [TaskQueue.process]

/-- C2: a job whose action has not settled when its timeout budget
elapses — its first settlement event is the timer firing — fails with
the Timeout error carrying the configured budget; whatever the action
later does is discarded (appending further settlement events changes
nothing, so the outcome is delivered exactly once even if both the
timer and the action settle); and the next queued job still starts
after the timeout: the drain continues with the remaining jobs. -/
theorem job_timeout_budget (j : TaskQueue.Job) (rest : List RaceEvent)
    (hj : j.events = .timerFires :: rest) :
    TaskQueue.settleJob j = some (.error (.jobTimedOut j.timeoutMs)) ∧
    errMessage (.jobTimedOut j.timeoutMs) = s!"Job timed out after {j.timeoutMs}ms" ∧
    (∀ more : List RaceEvent,
        TaskQueue.runWithTimeout (j.events ++ more) j.timeoutMs =
          TaskQueue.runWithTimeout j.events j.timeoutMs) ∧
    (∀ queued : List TaskQueue.Job,
        TaskQueue.processAll (j :: queued) =
          some (.error (.jobTimedOut j.timeoutMs)) :: TaskQueue.processAll queued) := by
  have hrun : TaskQueue.runWithTimeout j.events j.timeoutMs =
      { finished := true, outcome := some (.error (.jobTimedOut j.timeoutMs)) } := by
    rw [hj, runWithTimeout_first]
    simp [raceStep]
  refine ⟨?_, rfl, ?_, ?_⟩
  · simp [TaskQueue.settleJob, hrun]
  · intro more
    exact runWithTimeout_append _ _ _ (by rw [hrun])
  · intro queued
    simp [TaskQueue.processAll, TaskQueue.settleJob, hrun]

/-- Witness for `job_timeout_budget` at a concrete job whose action
resolves only after the timer fired. -/
theorem job_timeout_budget_witness :
    ({ timeoutMs := 45000,
       events := [.timerFires, .actionResolves 5] } : TaskQueue.Job).events =
        .timerFires :: [.actionResolves 5] ∧
    (TaskQueue.settleJob { timeoutMs := 45000, events := [.timerFires, .actionResolves 5] } =
        some (.error (.jobTimedOut 45000)) ∧
      errMessage (.jobTimedOut 45000) = s!"Job timed out after {(45000 : Nat)}ms" ∧
      (∀ more : List RaceEvent,
          TaskQueue.runWithTimeout ([.timerFires, .actionResolves 5] ++ more) 45000 =
            TaskQueue.runWithTimeout [.timerFires, .actionResolves 5] 45000) ∧
      (∀ queued : List TaskQueue.Job,
          TaskQueue.processAll ({ timeoutMs := 45000, events := [.timerFires, .actionResolves 5] } :: queued) =
            some (.error (.jobTimedOut 45000)) :: TaskQueue.processAll queued)) :=
  ⟨rfl, job_timeout_budget { timeoutMs := 45000, events := [.timerFires, .actionResolves 5] }
    [.actionResolves 5] rfl⟩

/-- C3 counterexample: with the session up, a queued send that dies of
the job timer (its only settlement event is the timer firing) is
reported as the Timeout error AND `failover()` is invoked as a direct
consequence — the catch block of `enqueueSendOperation` calls it for
every rejection, timeouts included, advancing the session index. -/
theorem timeout_triggers_failover_cex :
    (enqueueSendOperation none st0 jTimeout).1 = some (.error (.jobTimedOut 45000)) ∧
    (enqueueSendOperation none st0 jTimeout).2.2 = true ∧
    (enqueueSendOperation none st0 jTimeout).2.1.currentSessionIndex = 1 ∧
    st0.currentSessionIndex = 0 := by decide

/-- C3 amended: every rejection of an enqueued send operation —
Timeout from the job timer included — makes `enqueueSendOperation`
invoke `failover()` and then rethrow the original error to the caller;
only a successful job leaves the session alone.  Disconnect events also
trigger failover, via the disconnected handler. -/
theorem enqueue_failure_triggers_failover (d : Option Err) (st : AppState)
    (j : TaskQueue.Job) :
    (∀ e : Err, wrappedJobOutcome st j = some (.error e) →
        enqueueSendOperation d st j = (some (.error e), failover d st, true)) ∧
    (∀ v : Nat, wrappedJobOutcome st j = some (.ok v) →
        enqueueSendOperation d st j = (some (.ok v), st, false)) ∧
    (handleDisconnected d st = failover d st) := by
  refine ⟨?_, ?_, rfl⟩
  · intro e he
    simp [enqueueSendOperation, he]
  · intro v hv
    simp [enqueueSendOperation, hv]

/-- Witness for `enqueue_failure_triggers_failover` on the concrete
timed-out job. -/
theorem enqueue_failure_triggers_failover_witness :
    ((∀ e : Err, wrappedJobOutcome st0 jTimeout = some (.error e) →
        enqueueSendOperation none st0 jTimeout = (some (.error e), failover none st0, true)) ∧
      (∀ v : Nat, wrappedJobOutcome st0 jTimeout = some (.ok v) →
        enqueueSendOperation none st0 jTimeout = (some (.ok v), st0, false)) ∧
      (handleDisconnected none st0 = failover none st0)) ∧
    wrappedJobOutcome st0 jTimeout = some (.error (.jobTimedOut 45000)) :=
  ⟨enqueue_failure_triggers_failover none st0 jTimeout, by decide⟩

/-- C4 counterexample: in main.js's queue path there is no readiness
gate at all.  With the current session created and initialized but not
yet ready (state connecting), the enqueued wrapper still reaches the
session operation `fn()` and returns its result: a send is attempted
against a session that has passed no gate. -/
theorem no_readiness_gate_cex :
    st0.client.map Session.sstate = some .connecting ∧
    some SessState.connecting ≠ some SessState.ready ∧
    (mainWrappedAttempt st0 (.ok 7)).2 = true ∧
    (mainWrappedAttempt st0 (.ok 7)).1 = .ok 7 := by decide

/-- C4 amended: in the queue variant (main.queue.js), every task that
`processQueue` actually attempts has first passed `waitForClientReady`
with its 60000 ms default budget; the gate passes exactly when the
client exists and is either already ready or emits ready within the
budget, and rejects with the Timeout error when ready never arrives.
In main.js, by contrast, the enqueued wrapper attempts the session
operation whenever `client` is non-null, with no readiness gate. -/
theorem readiness_gate_amended (env : ReadyEnv) (tasks : List Outcome)
    (taskResult : Outcome) :
    (∀ p ∈ QueueVariant.processQueue env tasks, p.2 = true →
        QueueVariant.waitForClientReady env 60000 = none) ∧
    (env.clientPresent = true → env.clientReady = false → env.readyEventAt = none →
        QueueVariant.waitForClientReady env 60000 = some .timeoutEsperandoReady) ∧
    (env.clientPresent = false →
        QueueVariant.waitForClientReady env 60000 = some .timeoutEsperandoReady) ∧
    (∀ (st : AppState) (s : Session), st.client = some s →
        (mainWrappedAttempt st taskResult).2 = true ∧
        (mainWrappedAttempt st taskResult).1 = taskResult) := by
  refine ⟨?_, ?_, ?_, ?_⟩
  · intro p hp hatt
    induction tasks with
    | nil => simp [QueueVariant.processQueue] at hp
    | cons t rest ih =>
        simp only [QueueVariant.processQueue, List.mem_cons] at hp
        rcases hp with hp | hp
        · subst hp
          unfold QueueVariant.gatedRunItem at hatt
          cases hg : QueueVariant.waitForClientReady env 60000 with
          | none => rfl
          | some e => rw [hg] at hatt; simp at hatt
        · exact ih hp
  · intro h1 h2 h3
    simp [QueueVariant.waitForClientReady, h1, h2, h3]
  · intro h1
    simp [QueueVariant.waitForClientReady, h1]
  · intro st s hs
    simp [mainWrappedAttempt, hs]

/-- Witness for `readiness_gate_amended`: the not-yet-ready environment
and concrete session `st0`. -/
theorem readiness_gate_amended_witness :
    ((∀ p ∈ QueueVariant.processQueue
          { clientPresent := true, clientReady := false, readyEventAt := none } [.ok 3],
        p.2 = true →
        QueueVariant.waitForClientReady
          { clientPresent := true, clientReady := false, readyEventAt := none } 60000 = none) ∧
      (({ clientPresent := true, clientReady := false, readyEventAt := none } : ReadyEnv).clientPresent = true →
        ({ clientPresent := true, clientReady := false, readyEventAt := none } : ReadyEnv).clientReady = false →
        ({ clientPresent := true, clientReady := false, readyEventAt := none } : ReadyEnv).readyEventAt = none →
        QueueVariant.waitForClientReady
          { clientPresent := true, clientReady := false, readyEventAt := none } 60000 =
          some .timeoutEsperandoReady) ∧
      (({ clientPresent := true, clientReady := false, readyEventAt := none } : ReadyEnv).clientPresent = false →
        QueueVariant.waitForClientReady
          { clientPresent := true, clientReady := false, readyEventAt := none } 60000 =
          some .timeoutEsperandoReady) ∧
      (∀ (st : AppState) (s : Session), st.client = some s →
        (mainWrappedAttempt st (.ok 3)).2 = true ∧
        (mainWrappedAttempt st (.ok 3)).1 = .ok 3)) :=
  readiness_gate_amended { clientPresent := true, clientReady := false, readyEventAt := none }
    [.ok 3] (.ok 3)

/-- C6: `failover()` never depends on the outcome of the old session's
`destroy()` (a destroy failure is swallowed and never blocks progress),
advances the session-identity index by exactly one modulo the pool
size, and immediately installs as current a freshly created session
under the next identity — with the qr, loading-screen, ready,
auth-failure, disconnected and message handlers wired by
`createClient`, plus the once-ready server hook — whose state is still
`connecting`, not `ready`. -/
theorem failover_swaps_session (st : AppState) (d1 d2 : Option Err) :
    failover d1 st = failover d2 st ∧
    (failover d1 st).currentSessionIndex =
      (st.currentSessionIndex + 1) % sessionIds.length ∧
    (failover d1 st).client =
      some { sessionId := sessionIds.getD ((st.currentSessionIndex + 1) % sessionIds.length) ""
             handlers := [.qr, .loadingScreen, .ready, .authFailure, .disconnected, .message, .ready]
             sstate := .connecting } ∧
    (failover d1 st).client.map Session.sstate ≠ some SessState.ready := by
  refine ⟨rfl, rfl, rfl, ?_⟩
  simp [failover, clientInit, createClient]

/-! ## Association-list map lemmas -/

theorem mlookup_merase_self {α : Type} (m : SMap α) (k : String) :
    mlookup (merase m k) k = none := by
  induction m with
  | nil => rfl
  | cons p rest ih =>
      simp only [merase]
      by_cases hp : p.1 = k
      · rw [if_pos hp]; exact ih
      · rw [if_neg hp]
        simp only [mlookup]
        rw [if_neg hp]
        exact ih

theorem mlookup_merase_ne {α : Type} (m : SMap α) (k k' : String) (h : k' ≠ k) :
    mlookup (merase m k) k' = mlookup m k' := by
  induction m with
  | nil => rfl
  | cons p rest ih =>
      simp only [merase, mlookup]
      by_cases hp : p.1 = k
      · have hp' : ¬ p.1 = k' := by rw [hp]; exact fun he => h he.symm
        rw [if_pos hp, if_neg hp']
        exact ih
      · rw [if_neg hp]
        simp only [mlookup]
        by_cases hp' : p.1 = k'
        · rw [if_pos hp', if_pos hp']
        · rw [if_neg hp', if_neg hp']
          exact ih

theorem merase_sublist {α : Type} (m : SMap α) (k : String) :
    List.Sublist (merase m k) m := by
  induction m with
  | nil => simp [merase]
  | cons p rest ih =>
      simp only [merase]
      by_cases hp : p.1 = k
      · rw [if_pos hp]; exact ih.cons p
      · rw [if_neg hp]; exact ih.cons₂ p

theorem mlookup_minsert_self {α : Type} (m : SMap α) (k : String) (v : α) :
    mlookup (minsert m k v) k = some v := by
  simp [minsert, mlookup]

theorem mlookup_minsert_ne {α : Type} (m : SMap α) (k k' : String) (v : α)
    (h : k' ≠ k) : mlookup (minsert m k v) k' = mlookup m k' := by
  have : ¬ k = k' := fun he => h he.symm
  simp [minsert, mlookup, this, mlookup_merase_ne m k k' h]

theorem isSome_mlookup_minsert {α : Type} (m : SMap α) (k k' : String) (v : α)
    (h : (mlookup m k').isSome = true) :
    (mlookup (minsert m k v) k').isSome = true := by
  by_cases hk : k' = k
  · subst hk; simp [mlookup_minsert_self]
  · rw [mlookup_minsert_ne m k k' v hk]; exact h

theorem mem_of_mlookup {α : Type} (m : SMap α) (k : String) (v : α)
    (h : mlookup m k = some v) : (k, v) ∈ m := by
  induction m with
  | nil => simp [mlookup] at h
  | cons p rest ih =>
      obtain ⟨a, b⟩ := p
      simp only [mlookup] at h
      by_cases hp : a = k
      · rw [if_pos hp] at h
        injection h with hbv
        subst hbv
        subst hp
        exact List.mem_cons_self _ _
      · rw [if_neg hp] at h
        exact List.mem_cons_of_mem _ (ih h)

theorem mlookup_of_mem_nodup {α : Type} (m : SMap α) (k : String) (v : α)
    (hnd : NodupKeys m) (hmem : (k, v) ∈ m) : mlookup m k = some v := by
  induction m with
  | nil => simp at hmem
  | cons p rest ih =>
      rcases List.mem_cons.mp hmem with hmem | hmem
      · subst hmem
        simp [mlookup]
      · have hk : k ∈ rest.map Prod.fst :=
          List.mem_map.mpr ⟨(k, v), hmem, rfl⟩
        have hnd' : NodupKeys rest := (List.nodup_cons.mp hnd).2
        have hp : ¬ p.1 = k := by
          intro he
          exact (List.nodup_cons.mp hnd).1 (he ▸ hk)
        rw [mlookup, if_neg hp]
        exact ih hnd' hmem

theorem nodupKeys_merase {α : Type} (m : SMap α) (k : String)
    (h : NodupKeys m) : NodupKeys (merase m k) :=
  h.sublist (List.Sublist.map Prod.fst (merase_sublist m k))

theorem not_mem_keys_merase {α : Type} (m : SMap α) (k : String) :
    k ∉ (merase m k).map Prod.fst := by
  induction m with
  | nil => simp [merase]
  | cons p rest ih =>
      simp only [merase]
      by_cases hp : p.1 = k
      · rw [if_pos hp]; exact ih
      · rw [if_neg hp]
        simp only [List.map_cons, List.mem_cons]
        rintro (h | h)
        · exact hp h.symm
        · exact ih h

theorem nodupKeys_minsert {α : Type} (m : SMap α) (k : String) (v : α)
    (h : NodupKeys m) : NodupKeys (minsert m k v) := by
  refine List.nodup_cons.mpr ⟨not_mem_keys_merase m k, nodupKeys_merase m k h⟩

/-- C8: for every inbound message whose conversation has an active wait
entry, the handler caches the message under the mapped message id,
clears the conversation's mapping, wakes exactly the waiters currently
registered for that id with the reply, and removes both the resolver
list and the deadline-timer entry; an inbound message on a conversation
with no wait entry leaves the whole correlator state unchanged and
wakes nobody. -/
theorem inbound_message_spec (st : CorrState) (m : Msg) :
    (∀ (idM : String) (ws : List Nat),
        mlookup st.esperas m.msgFrom = some idM →
        mlookup st.resolvers idM = some ws →
        mlookup (onMessage st m).1.respuestas idM = some m ∧
        mlookup (onMessage st m).1.esperas m.msgFrom = none ∧
        (onMessage st m).2 = ws.map (fun w => { waiter := w, payload := some m }) ∧
        mlookup (onMessage st m).1.resolvers idM = none ∧
        mlookup (onMessage st m).1.timeouts idM = none) ∧
    (mlookup st.esperas m.msgFrom = none → onMessage st m = (st, [])) := by
  constructor
  · intro idM ws hesp hres
    refine ⟨?_, ?_, ?_, ?_, ?_⟩
    · simp only [onMessage, hesp]
      exact mlookup_minsert_self _ _ _
    · simp only [onMessage, hesp]
      exact mlookup_merase_self _ _
    · simp only [onMessage, hesp, hres]
    · simp only [onMessage, hesp, hres]
      exact mlookup_merase_self _ _
    · cases ht : mlookup st.timeouts idM with
      | some tmr =>
          simp only [onMessage, hesp, ht]
          exact mlookup_merase_self _ _
      | none =>
          simp only [onMessage, hesp, ht]
  · intro h
    simp [onMessage, h]

/-- Witness for `inbound_message_spec`: the wait `(c, m1)` with waiter 7
is resolved by an inbound message on c. -/
theorem inbound_message_spec_witness :
    mlookup (onMessage c5s2 { msgFrom := "c", body := "pong" }).1.respuestas "m1" =
        some { msgFrom := "c", body := "pong" } ∧
    mlookup (onMessage c5s2 { msgFrom := "c", body := "pong" }).1.esperas "c" = none ∧
    (onMessage c5s2 { msgFrom := "c", body := "pong" }).2 =
        [{ waiter := 7, payload := some { msgFrom := "c", body := "pong" } }] ∧
    mlookup (onMessage c5s2 { msgFrom := "c", body := "pong" }).1.resolvers "m1" = none ∧
    mlookup (onMessage c5s2 { msgFrom := "c", body := "pong" }).1.timeouts "m1" = none := by
  have h := (inbound_message_spec c5s2 { msgFrom := "c", body := "pong" }).1 "m1" [7]
    (by decide) (by decide)
  exact h

/-- C5 counterexample: `registerWait(c, m1)` with a waiter parked on
m1, then `registerWait(c, m2)` before any reply.  When m1's own
deadline fires, its guard finds the conversation mapped to m2, so it
wakes nobody — m1's waiter stays parked in `resolvers` — and an inbound
message on c wakes only m2's (empty) waiter list, also leaving m1's
waiter parked.  m1's waiters are therefore never released, contrary to
the claim that m1's deadline resolves them with no-reply. -/
theorem stale_deadline_never_wakes_cex :
    awaitReplyStep c5s1 "m1" 7 = .suspended c5s2 ∧
    (deadlineFire c5s3 "c" "m1").2 = [] ∧
    mlookup (deadlineFire c5s3 "c" "m1").1.resolvers "m1" = some [7] ∧
    (onMessage c5s3 { msgFrom := "c", body := "pong" }).2 = [] ∧
    mlookup (onMessage c5s3 { msgFrom := "c", body := "pong" }).1.resolvers "m1" =
      some [7] := by decide

/-- C5 amended: after `registerWait(c, m1)` then `registerWait(c, m2)`
with no reply in between, an inbound message on c resolves m2's
waiters, not m1's; but m1's waiters are never released: m1's own
deadline, finding the conversation mapping moved on to m2, wakes no
waiters and leaves both `esperas` and `resolvers` untouched (it only
discards m1's timer entry). -/
theorem register_overwrite_amended (st : CorrState) (c m1 m2 : String)
    (w1s w2s : List Nat) (m : Msg)
    (hne : m1 ≠ m2)
    (hm : mlookup st.esperas c = some m2)
    (hr1 : mlookup st.resolvers m1 = some w1s)
    (hr2 : mlookup st.resolvers m2 = some w2s)
    (hfrom : m.msgFrom = c) :
    ((onMessage st m).2 = w2s.map (fun w => { waiter := w, payload := some m }) ∧
      mlookup (onMessage st m).1.resolvers m1 = some w1s) ∧
    ((deadlineFire st c m1).2 = [] ∧
      (deadlineFire st c m1).1.resolvers = st.resolvers ∧
      (deadlineFire st c m1).1.esperas = st.esperas) := by
  have hguard : ¬ (mlookup st.esperas c = some m1 ∧ mlookup st.respuestas m1 = none) := by
    rintro ⟨h1, -⟩
    rw [hm] at h1
    injection h1 with h1
    exact hne (h1.symm)
  constructor
  · constructor
    · simp only [onMessage, hfrom, hm, hr2]
    · simp only [onMessage, hfrom, hm, hr2]
      rw [mlookup_merase_ne st.resolvers m2 m1 hne]
      exact hr1
  · rw [deadlineFire, if_neg hguard]
    exact ⟨rfl, rfl, rfl⟩

/-- Witness for `register_overwrite_amended` at the concrete overwrite
state `c5s3`. -/
theorem register_overwrite_amended_witness :
    (((onMessage c5s3 { msgFrom := "c", body := "x" }).2 =
        ([] : List Nat).map (fun w => { waiter := w, payload := some { msgFrom := "c", body := "x" } }) ∧
      mlookup (onMessage c5s3 { msgFrom := "c", body := "x" }).1.resolvers "m1" = some [7]) ∧
    ((deadlineFire c5s3 "c" "m1").2 = [] ∧
      (deadlineFire c5s3 "c" "m1").1.resolvers = c5s3.resolvers ∧
      (deadlineFire c5s3 "c" "m1").1.esperas = c5s3.esperas)) :=
  register_overwrite_amended c5s3 "c" "m1" "m2" [7] [] { msgFrom := "c", body := "x" }
    (by decide) (by decide) (by decide) (by decide) (by decide)

/-- Inverting a suspension of `GET /respuesta`: it leaves `esperas`,
`respuestas` and `timeouts` alone, requires no cached reply, and
appends the waiter to an existing resolver list. -/
theorem suspended_inv (st st1 : CorrState) (mid : String) (w : Nat)
    (h : awaitReplyStep st mid w = .suspended st1) :
    mlookup st.respuestas mid = none ∧
    st1.esperas = st.esperas ∧ st1.respuestas = st.respuestas ∧
    st1.timeouts = st.timeouts ∧
    ∃ ws : List Nat, mlookup st.resolvers mid = some ws ∧
      st1.resolvers = minsert st.resolvers mid (ws ++ [w]) := by
  unfold awaitReplyStep at h
  cases hres : mlookup st.respuestas mid with
  | some mm =>
      rw [hres] at h
      exact AwaitOut.noConfusion h
  | none =>
      rw [hres] at h
      by_cases hany : st.esperas.any (fun p => p.2 == mid) = true
      · rw [if_pos hany] at h
        cases hrs : mlookup st.resolvers mid with
        | some ws =>
            rw [hrs] at h
            injection h with h1
            subst h1
            exact ⟨rfl, rfl, rfl, rfl, ws, rfl, rfl⟩
        | none =>
            rw [hrs] at h
            exact AwaitOut.noConfusion h
      · rw [if_neg hany] at h
        exact AwaitOut.noConfusion h

/-- Entries of `respuestas` survive every correlator transition: nothing
ever deletes a cached reply. -/
theorem respuestas_isSome_step (st st1 : CorrState) (h : CorrStep st st1)
    (id : String) (hs : (mlookup st.respuestas id).isSome = true) :
    (mlookup st1.respuestas id).isSome = true := by
  cases h with
  | reg c mid t => exact hs
  | msg m =>
      cases he : mlookup st.esperas m.msgFrom with
      | none => simpa only [onMessage, he] using hs
      | some idM =>
          simp only [onMessage, he]
          exact isSome_mlookup_minsert _ _ _ _ hs
  | dead c mid =>
      by_cases hg : mlookup st.esperas c = some mid ∧ mlookup st.respuestas mid = none
      · simpa only [deadlineFire, if_pos hg] using hs
      · simpa only [deadlineFire, if_neg hg] using hs
  | push stx mid w hsusp =>
      obtain ⟨-, -, hresp, -, -⟩ := suspended_inv st st1 mid w hsusp
      rw [hresp]
      exact hs

/-- C7: once a reply for a message id is cached, then after any
sequence of further correlator operations `GET /respuesta/:idMensaje`
still returns a cached reply immediately — without registering a
waiter or suspending — because cached replies are kept for the whole
process lifetime; and when no reply is cached and the id is not the
target of any active wait, the endpoint fails with 404 not-found. -/
theorem cached_reply_immediate (st st' : CorrState) (id : String)
    (hsteps : Relation.ReflTransGen CorrStep st st')
    (hc : (mlookup st.respuestas id).isSome = true) :
    (∃ m : Msg, mlookup st'.respuestas id = some m ∧
        ∀ w : Nat, awaitReplyStep st' id w = .cached m) ∧
    (∀ (s2 : CorrState) (w : Nat), mlookup s2.respuestas id = none →
        s2.esperas.any (fun p => p.2 == id) = false →
        awaitReplyStep s2 id w = .notFound) := by
  constructor
  · have hs' : (mlookup st'.respuestas id).isSome = true := by
      induction hsteps with
      | refl => exact hc
      | tail h1 h2 ih => exact respuestas_isSome_step _ _ h2 id ih
    cases hm : mlookup st'.respuestas id with
    | none => rw [hm] at hs'; simp at hs'
    | some m =>
        refine ⟨m, rfl, fun w => ?_⟩
        simp only [awaitReplyStep, hm]
  · intro s2 w h1 h2
    unfold awaitReplyStep
    simp only [h1]
    rw [if_neg (by simp [h2])]

/-- Witness for `cached_reply_immediate`: a reply cached for m1, one
further `registerWait` step later. -/
theorem cached_reply_immediate_witness :
    (∃ m : Msg, mlookup stCachedLater.respuestas "m1" = some m ∧
        ∀ w : Nat, awaitReplyStep stCachedLater "m1" w = .cached m) ∧
    (∀ (s2 : CorrState) (w : Nat), mlookup s2.respuestas "m1" = none →
        s2.esperas.any (fun p => p.2 == "m1") = false →
        awaitReplyStep s2 "m1" w = .notFound) :=
  cached_reply_immediate stCached stCachedLater "m1"
    (Relation.ReflTransGen.single (CorrStep.reg stCached "c2" "m9" 2)) (by decide)

/-- Every reachable correlator state satisfies the invariant: distinct
wait keys, injective conversation-to-id targeting, and a resolver entry
for every targeted id. -/
theorem corrReach_inv (s : CorrState) (h : CorrReach s) : CorrInv s := by
  induction h with
  | init =>
      refine ⟨?_, ?_, ?_⟩
      · simp [NodupKeys, emptyCorr]
      · exact fun c c' mid0 h1 _ => Option.noConfusion h1
      · exact fun c mid0 h1 => Option.noConfusion h1
  | reg st c mid t hre hfresh ih =>
      obtain ⟨ihnd, ihinj, ihres⟩ := ih
      have hfr : ∀ c0 : String, mlookup st.esperas c0 ≠ some mid := by
        intro c0 hc0
        have hmem := mem_of_mlookup _ _ _ hc0
        have hany : st.esperas.any (fun p => p.2 == mid) = true :=
          List.any_eq_true.mpr ⟨(c0, mid), hmem, by simp⟩
        rw [hfresh] at hany
        exact Bool.noConfusion hany
      refine ⟨?_, ?_, ?_⟩
      · exact nodupKeys_minsert _ _ _ ihnd
      · intro c0 c0' mid0 h0 h0'
        simp only [registerWait] at h0 h0'
        by_cases hc0 : c0 = c
        · by_cases hc0' : c0' = c
          · rw [hc0, hc0']
          · subst hc0
            rw [mlookup_minsert_self] at h0
            injection h0 with h0
            subst h0
            rw [mlookup_minsert_ne _ _ _ _ hc0'] at h0'
            exact absurd h0' (hfr c0')
        · by_cases hc0' : c0' = c
          · subst hc0'
            rw [mlookup_minsert_self] at h0'
            injection h0' with h0'
            subst h0'
            rw [mlookup_minsert_ne _ _ _ _ hc0] at h0
            exact absurd h0 (hfr c0)
          · rw [mlookup_minsert_ne _ _ _ _ hc0] at h0
            rw [mlookup_minsert_ne _ _ _ _ hc0'] at h0'
            exact ihinj c0 c0' mid0 h0 h0'
      · intro c0 mid0 h0
        simp only [registerWait] at h0 ⊢
        by_cases hc0 : c0 = c
        · subst hc0
          rw [mlookup_minsert_self] at h0
          injection h0 with h0
          subst h0
          rw [mlookup_minsert_self]
          rfl
        · rw [mlookup_minsert_ne _ _ _ _ hc0] at h0
          exact isSome_mlookup_minsert _ _ _ _ (ihres c0 mid0 h0)
  | msg st m hre ih =>
      obtain ⟨ihnd, ihinj, ihres⟩ := ih
      cases he : mlookup st.esperas m.msgFrom with
      | none =>
          have heq : (onMessage st m).1 = st := by simp [onMessage, he]
          rw [heq]
          exact ⟨ihnd, ihinj, ihres⟩
      | some idM =>
          have hesp : (onMessage st m).1.esperas = merase st.esperas m.msgFrom := by
            simp only [onMessage, he]
          have hres2 : ∀ mid0 : String, mid0 ≠ idM →
              mlookup (onMessage st m).1.resolvers mid0 = mlookup st.resolvers mid0 := by
            intro mid0 hne
            cases hr : mlookup st.resolvers idM with
            | some ws =>
                simp only [onMessage, he, hr]
                exact mlookup_merase_ne _ _ _ hne
            | none => simp only [onMessage, he, hr]
          refine ⟨?_, ?_, ?_⟩
          · rw [hesp]
            exact nodupKeys_merase _ _ ihnd
          · intro c0 c0' mid0 h0 h0'
            rw [hesp] at h0 h0'
            by_cases hc0 : c0 = m.msgFrom
            · subst hc0
              rw [mlookup_merase_self] at h0
              exact Option.noConfusion h0
            · by_cases hc0' : c0' = m.msgFrom
              · subst hc0'
                rw [mlookup_merase_self] at h0'
                exact Option.noConfusion h0'
              · rw [mlookup_merase_ne _ _ _ hc0] at h0
                rw [mlookup_merase_ne _ _ _ hc0'] at h0'
                exact ihinj c0 c0' mid0 h0 h0'
          · intro c0 mid0 h0
            rw [hesp] at h0
            by_cases hc0 : c0 = m.msgFrom
            · subst hc0
              rw [mlookup_merase_self] at h0
              exact Option.noConfusion h0
            · rw [mlookup_merase_ne _ _ _ hc0] at h0
              have hmid0 : mid0 ≠ idM := by
                intro heq
                subst heq
                exact hc0 (ihinj c0 m.msgFrom mid0 h0 he)
              rw [hres2 mid0 hmid0]
              exact ihres c0 mid0 h0
  | dead st c mid hre ih =>
      obtain ⟨ihnd, ihinj, ihres⟩ := ih
      by_cases hg : mlookup st.esperas c = some mid ∧ mlookup st.respuestas mid = none
      · have hesp : (deadlineFire st c mid).1.esperas = merase st.esperas c := by
          simp only [deadlineFire, if_pos hg]
        have hres2 : (deadlineFire st c mid).1.resolvers = merase st.resolvers mid := by
          simp only [deadlineFire, if_pos hg]
        refine ⟨?_, ?_, ?_⟩
        · rw [hesp]
          exact nodupKeys_merase _ _ ihnd
        · intro c0 c0' mid0 h0 h0'
          rw [hesp] at h0 h0'
          by_cases hc0 : c0 = c
          · subst hc0
            rw [mlookup_merase_self] at h0
            exact Option.noConfusion h0
          · by_cases hc0' : c0' = c
            · subst hc0'
              rw [mlookup_merase_self] at h0'
              exact Option.noConfusion h0'
            · rw [mlookup_merase_ne _ _ _ hc0] at h0
              rw [mlookup_merase_ne _ _ _ hc0'] at h0'
              exact ihinj c0 c0' mid0 h0 h0'
        · intro c0 mid0 h0
          rw [hesp] at h0
          by_cases hc0 : c0 = c
          · subst hc0
            rw [mlookup_merase_self] at h0
            exact Option.noConfusion h0
          · rw [mlookup_merase_ne _ _ _ hc0] at h0
            have hmid0 : mid0 ≠ mid := by
              intro heq
              subst heq
              exact hc0 (ihinj c0 c mid0 h0 hg.1)
            rw [hres2, mlookup_merase_ne _ _ _ hmid0]
            exact ihres c0 mid0 h0
      · have hesp : (deadlineFire st c mid).1.esperas = st.esperas := by
          simp only [deadlineFire, if_neg hg]
        have hres2 : (deadlineFire st c mid).1.resolvers = st.resolvers := by
          simp only [deadlineFire, if_neg hg]
        refine ⟨?_, ?_, ?_⟩
        · rw [hesp]
          exact ihnd
        · intro c0 c0' mid0 h0 h0'
          rw [hesp] at h0 h0'
          exact ihinj c0 c0' mid0 h0 h0'
        · intro c0 mid0 h0
          rw [hesp] at h0
          rw [hres2]
          exact ihres c0 mid0 h0
  | push st st1 mid w hre hsusp ih =>
      obtain ⟨-, hespeq, -, -, ws, hws, hresolv⟩ := suspended_inv st st1 mid w hsusp
      obtain ⟨ihnd, ihinj, ihres⟩ := ih
      refine ⟨?_, ?_, ?_⟩
      · rw [hespeq]
        exact ihnd
      · intro c0 c0' mid0 h0 h0'
        rw [hespeq] at h0 h0'
        exact ihinj c0 c0' mid0 h0 h0'
      · intro c0 mid0 h0
        rw [hespeq] at h0
        rw [hresolv]
        exact isSome_mlookup_minsert _ _ _ _ (ihres c0 mid0 h0)

/-- C9: in every reachable correlator state, each message id targeted
by a value of `esperas` has an entry in `resolvers` — each of the wait
registration, the inbound-message handler, the deadline callback and
the waiter push preserves this — so the unguarded
`resolvers.get(idMensaje).push(resolve)` in `GET /respuesta`, reached
only when the id is an `esperas` value and nothing is cached, never
dereferences an undefined entry. -/
theorem esperas_target_has_resolvers (s : CorrState) (h : CorrReach s) :
    (∀ c mid : String, mlookup s.esperas c = some mid →
        (mlookup s.resolvers mid).isSome = true) ∧
    (∀ (mid : String) (w : Nat), awaitReplyStep s mid w ≠ .crash) := by
  have hinv := corrReach_inv s h
  refine ⟨hinv.2.2, ?_⟩
  intro mid w hcrash
  unfold awaitReplyStep at hcrash
  cases hres : mlookup s.respuestas mid with
  | some mm =>
      rw [hres] at hcrash
      exact AwaitOut.noConfusion hcrash
  | none =>
      rw [hres] at hcrash
      by_cases hany : s.esperas.any (fun p => p.2 == mid) = true
      · rw [if_pos hany] at hcrash
        obtain ⟨p, hpmem, hpmid⟩ := List.any_eq_true.mp hany
        obtain ⟨c0, mid0⟩ := p
        have hmid0 : mid0 = mid := by simpa using hpmid
        rw [hmid0] at hpmem
        have hlk : mlookup s.esperas c0 = some mid :=
          mlookup_of_mem_nodup _ _ _ hinv.1 hpmem
        have hrs := hinv.2.2 c0 mid hlk
        cases hws : mlookup s.resolvers mid with
        | none => rw [hws] at hrs; exact Bool.noConfusion hrs
        | some ws =>
            rw [hws] at hcrash
            exact AwaitOut.noConfusion hcrash
      · rw [if_neg hany] at hcrash
        exact AwaitOut.noConfusion hcrash

/-- Witness for `esperas_target_has_resolvers` at the reachable
overwrite state `c5s3`. -/
theorem esperas_target_has_resolvers_witness :
    (∀ c mid : String, mlookup c5s3.esperas c = some mid →
        (mlookup c5s3.resolvers mid).isSome = true) ∧
    (∀ (mid : String) (w : Nat), awaitReplyStep c5s3 mid w ≠ .crash) :=
  esperas_target_has_resolvers c5s3
    (CorrReach.reg c5s2 "c" "m2" 2
      (CorrReach.push c5s1 c5s2 "m1" 7
        (CorrReach.reg emptyCorr "c" "m1" 1 CorrReach.init (by decide))
        (by decide))
      (by decide))

/-- C10 counterexample: a request to `/enviar-mensaje` whose `numero`
is the empty string — a string length (0) different from 13 — is
answered 400 Faltan datos, not 404 Número inválido: the missing-data
check runs first and empty strings are falsy in JS. -/
theorem numero_validation_cex :
    ("" : String).length ≠ 13 ∧
    enviarMensajeRoute
        { numero := some "", texto := some "hola", lat := none, lon := none,
          filePath := none } = .faltanDatos ∧
    enviarMensajeRoute
        { numero := some "", texto := some "hola", lat := none, lon := none,
          filePath := none } ≠ .numeroInvalido := by decide

/-- C10 amended: for every request whose `numero` is present and
non-empty with length different from 13, and whose other required
fields are present (truthy), each of the four endpoints answers 404
Número inválido — so no task is enqueued and no session operation is
attempted; a request with a 13-character `numero` (and `texto`) passes
validation.  A missing or empty `numero` instead gets 400 Faltan
datos. -/
theorem numero_validation_amended (r : Req) (n : String)
    (hn : r.numero = some n) (hne : n ≠ "") (hlen : n.length ≠ 13) :
    (truthy r.texto = true → enviarMensajeRoute r = .numeroInvalido) ∧
    (truthy r.filePath = true → enviarArchivoRoute r = .numeroInvalido) ∧
    (truthy r.lat = true → truthy r.lon = true →
        enviarUbicacionRoute r = .numeroInvalido) ∧
    (truthy r.texto = true → esperarRoute r = .numeroInvalido) ∧
    (∀ (r2 : Req) (n2 : String), r2.numero = some n2 → n2.length = 13 →
        truthy r2.texto = true →
        enviarMensajeRoute r2 = .enqueued (n2 ++ "@c.us")) := by
  have htr : truthy (some n) = true := by
    simpa [truthy] using hne
  refine ⟨?_, ?_, ?_, ?_, ?_⟩
  · intro ht
    simp [enviarMensajeRoute, htr, ht, hn, hlen]
  · intro ht
    simp [enviarArchivoRoute, htr, ht, hn, hlen]
  · intro ht1 ht2
    simp [enviarUbicacionRoute, htr, ht1, ht2, hn, hlen]
  · intro ht
    simp [esperarRoute, htr, ht, hn, hlen]
  · intro r2 n2 hn2 hlen2 ht2
    have hne2 : n2 ≠ "" := by
      intro he
      rw [he] at hlen2
      simp at hlen2
    have htr2 : truthy (some n2) = true := by
      simpa [truthy] using hne2
    simp [enviarMensajeRoute, htr2, ht2, hn2, hlen2]

/-- Witness for `numero_validation_amended` with a 5-character and a
13-character numero. -/
theorem numero_validation_amended_witness :
    ((truthy (some "hola") = true →
        enviarMensajeRoute
          { numero := some "12345", texto := some "hola", lat := some "1",
            lon := some "2", filePath := some "f" } = .numeroInvalido) ∧
      (truthy (some "f") = true →
        enviarArchivoRoute
          { numero := some "12345", texto := some "hola", lat := some "1",
            lon := some "2", filePath := some "f" } = .numeroInvalido) ∧
      (truthy (some "1") = true → truthy (some "2") = true →
        enviarUbicacionRoute
          { numero := some "12345", texto := some "hola", lat := some "1",
            lon := some "2", filePath := some "f" } = .numeroInvalido) ∧
      (truthy (some "hola") = true →
        esperarRoute
          { numero := some "12345", texto := some "hola", lat := some "1",
            lon := some "2", filePath := some "f" } = .numeroInvalido) ∧
      (∀ (r2 : Req) (n2 : String), r2.numero = some n2 → n2.length = 13 →
        truthy r2.texto = true →
        enviarMensajeRoute r2 = .enqueued (n2 ++ "@c.us"))) :=
  numero_validation_amended
    { numero := some "12345", texto := some "hola", lat := some "1",
      lon := some "2", filePath := some "f" } "12345"
    rfl (by decide) (by decide)

end WApp
